import Mathlib

/-!
Scroll state machine of `AppBar` (src/src/AppBar.js)

A shallow embedding of the `onScroll` handler, the `setState` helper and the
animation effect of the `AppBar` component, followed by theorems about them.

Modelling conventions.

* Scroll offsets are integers (`Int`); the samples the viewport delivers are
  the non-negative ones.
* A `useRef()` cell holds `undefined` (never written), `null` (cleared) or a
  number.  The relational operators `<` and `>` of the source convert both
  operands with ToNumber, so `undefined` is NaN (every comparison false) and
  `null` is `0`.
* `onScroll` is a closure over the `state` of the render that created it.  The
  subscription effect depends on `[state]`, so the handler that receives a
  scroll notification closes over the current state.  Inside one call every
  `setState newState` evaluates `applyState({ ...state, ...newState })` with
  that same render-time `state`, and `applyState` replaces the state, so the
  state after the call is the argument of the last `applyState` of the call
  (or the state before the call when there is none).
-/

namespace AppBar

/-! ## Values and comparisons -/

/-- The values held by the component's ref cells. -/
inductive JSVal where
  | undefined : JSVal
  | null : JSVal
  | num : Int → JSVal
  deriving DecidableEq

/-- ToNumber of a ref cell value; `none` stands for NaN. -/
def JSVal.toNumber : JSVal → Option Int
  | .undefined => none
  | .null => some 0
  | .num n => some n

/-- The source's `a < b`: false as soon as an operand converts to NaN. -/
def jsLt (a b : JSVal) : Bool :=
  match a.toNumber, b.toNumber with
  | some x, some y => decide (x < y)
  | _, _ => false

/-- The source's `a > b`: false as soon as an operand converts to NaN. -/
def jsGt (a b : JSVal) : Bool :=
  match a.toNumber, b.toNumber with
  | some x, some y => decide (x > y)
  | _, _ => false

/-- A ref cell is armed when it holds a number (neither `null` nor `undefined`). -/
def JSVal.isNum : JSVal → Bool
  | .num _ => true
  | _ => false

/-! ## Component state -/

/-- The object kept by `useState`: the three flags. -/
structure HeaderState where
  stuck : Bool
  hidden : Bool
  animate : Bool
  deriving DecidableEq

/-- An object literal passed to `setState`: the flags it mentions. -/
structure Patch where
  stuck : Option Bool := none
  hidden : Option Bool := none
  animate : Option Bool := none

/-- The three ref cells `lastScrollY`, `unstickAt`, `stickAt`. -/
structure Refs where
  lastScrollY : JSVal
  unstickAt : JSVal
  stickAt : JSVal
  deriving DecidableEq

/-- The initial value given to `useState`. -/
def initialState : HeaderState :=
  { stuck := false, hidden := false, animate := false }

/-- The ref cells after `useRef()` without argument: all `undefined`. -/
def initialRefs : Refs :=
  { lastScrollY := .undefined, unstickAt := .undefined, stickAt := .undefined }

/-- The object `{ ...state, ...newState }` that `setState` hands to `applyState`. -/
def setState (state : HeaderState) (newState : Patch) : HeaderState :=
  { stuck := newState.stuck.getD state.stuck
    hidden := newState.hidden.getD state.hidden
    animate := newState.animate.getD state.animate }

/-! ## The scroll handler -/

/-- What one call of `onScroll` leaves behind: the argument of the last
`applyState` of the call (`none` when the call made none), the number of
`setState` calls it made, and the ref cells. -/
structure Call where
  applied : Option HeaderState
  calls : Nat
  refs : Refs

/-- First statement of `onScroll`: the reset / auto-hide `if ... else if`. -/
def resetOrHide (state : HeaderState) (scrollY : Int) (c : Call) : Call :=
  if scrollY = 0 then
    { c with
      applied := some (setState state { hidden := some false, stuck := some false,
                                        animate := some false })
      calls := c.calls + 1 }
  else if decide (scrollY > 64) && !state.hidden then
    { c with applied := some (setState state { hidden := some true }), calls := c.calls + 1 }
  else c

/-- Second statement of `onScroll`: the stick / unstick `if ... else if`. -/
def stickOrUnstick (state : HeaderState) (scrollY : Int) (c : Call) : Call :=
  if jsLt (.num scrollY) c.refs.stickAt && !state.stuck then
    { applied := some (setState state { stuck := some true })
      calls := c.calls + 1
      refs := { c.refs with stickAt := .null, unstickAt := .num (scrollY + 30) } }
  else if jsGt (.num scrollY) c.refs.unstickAt && state.stuck then
    { applied := some (setState state { stuck := some false })
      calls := c.calls + 1
      refs := { c.refs with unstickAt := .null, stickAt := .num (scrollY - 30) } }
  else c

/-- Third statement of `onScroll`: re-arm `unstickAt` when scrolling up while stuck. -/
def rearmUnstick (state : HeaderState) (scrollY : Int) (c : Call) : Call :=
  if jsGt c.refs.lastScrollY (.num scrollY) && state.stuck then
    { c with refs := { c.refs with unstickAt := .num (scrollY + 30) } }
  else c

/-- Fourth statement of `onScroll`: re-arm `stickAt` when scrolling down while not stuck. -/
def rearmStick (state : HeaderState) (scrollY : Int) (c : Call) : Call :=
  if jsLt c.refs.lastScrollY (.num scrollY) && !state.stuck then
    { c with refs := { c.refs with stickAt := .num (scrollY - 30) } }
  else c

/-- Last statement of `onScroll`: `lastScrollY.current = scrollY`. -/
def storeLast (scrollY : Int) (c : Call) : Call :=
  { c with refs := { c.refs with lastScrollY := .num scrollY } }

/-- One call of `onScroll` with `window.scrollY = scrollY`, in the render whose
state is `state` and with ref cells `refs`. -/
def onScroll (state : HeaderState) (refs : Refs) (scrollY : Int) : Call :=
  storeLast scrollY
    (rearmStick state scrollY
      (rearmUnstick state scrollY
        (stickOrUnstick state scrollY
          (resetOrHide state scrollY { applied := none, calls := 0, refs := refs }))))

/-- The component between two events: rendered state and ref cells. -/
structure Machine where
  state : HeaderState
  refs : Refs
  deriving DecidableEq

/-- The component right after mount. -/
def fresh : Machine := { state := initialState, refs := initialRefs }

/-- The machine after one scroll notification at offset `y`. -/
def scroll (m : Machine) (y : Int) : Machine :=
  let c := onScroll m.state m.refs y
  { state := c.applied.getD m.state, refs := c.refs }

/-- The machine after the scroll notifications `ys`, in order. -/
def run (m : Machine) (ys : List Int) : Machine := ys.foldl scroll m

/-- The number of `setState` calls one scroll notification makes. -/
def setStateCalls (m : Machine) (y : Int) : Nat := (onScroll m.state m.refs y).calls

/-- The offset is not below the threshold, when the threshold is armed. -/
def notBelow : JSVal → Int → Bool
  | .num s, y => decide (s ≤ y)
  | _, _ => true

/-- The offset is not above the threshold, when the threshold is armed. -/
def notAbove : JSVal → Int → Bool
  | .num u, y => decide (y ≤ u)
  | _, _ => true

/-- The offset lies in the current hysteresis band: not below an armed
`stickAt` and not above an armed `unstickAt`. -/
def inBand (m : Machine) (y : Int) : Prop :=
  notBelow m.refs.stickAt y = true ∧ notAbove m.refs.unstickAt y = true

instance (m : Machine) (y : Int) : Decidable (inBand m y) :=
  inferInstanceAs (Decidable (_ ∧ _))

/-- Every offset of the list is positive and lies in the hysteresis band of
the machine at the moment it is delivered. -/
def confined : Machine → List Int → Prop
  | _, [] => True
  | m, y :: ys => 0 < y ∧ inBand m y ∧ confined (scroll m y) ys

/-- At most one of `stickAt` and `unstickAt` holds a number. -/
def exclusive (r : Refs) : Prop := ¬ (r.stickAt.isNum = true ∧ r.unstickAt.isNum = true)

instance (r : Refs) : Decidable (exclusive r) :=
  inferInstanceAs (Decidable (¬ _))

/-- State left by the first statement of `onScroll` alone. -/
def afterResetOrHide (state : HeaderState) (y : Int) : HeaderState :=
  if y = 0 then { stuck := false, hidden := false, animate := false }
  else if decide (y > 64) && !state.hidden then { state with hidden := true }
  else state

/-- Invariant kept by every scroll notification at a non-negative offset:
while stuck, `stickAt` is not armed, `unstickAt` is armed and the last offset
is non-negative and not above it; while not stuck, an armed `stickAt` is not
above the last offset. -/
def Inv (m : Machine) : Prop :=
  (m.state.stuck = true →
    m.refs.stickAt.isNum = false ∧
      ∃ u l, m.refs.unstickAt = .num u ∧ m.refs.lastScrollY = .num l ∧ 0 ≤ l ∧ l ≤ u) ∧
  (m.state.stuck = false →
    ∀ s, m.refs.stickAt = .num s → ∃ l, m.refs.lastScrollY = .num l ∧ s ≤ l)

/-- While not stuck, `unstickAt` is not armed. -/
def UnstuckClear (m : Machine) : Prop :=
  m.state.stuck = false → m.refs.unstickAt.isNum = false

/-! ## The animation effect and its timer

`onScroll` is a listener added with `window.addEventListener`, and the timer
callback runs from `setTimeout`: in both, every `applyState` call renders the
component at once.  After a render the effect with dependency list `[hidden]`
runs when `hidden` differs from the render before; the effects of a render
have run before the next render starts.  So a call of `onScroll` that makes
two `setState` calls renders twice, and the effect sees the intermediate
state.  On mount the effect runs with `hidden = false` and schedules nothing. -/

/-- The mounted component together with its pending `setTimeout` callbacks.
A pending callback is `() => setState({ animate: true })` of the render that
scheduled it; it is recorded as the `state` that render's `setState` closes
over.  `armed` counts the timers scheduled since mount. -/
structure Mounted where
  machine : Machine
  timers : List HeaderState
  armed : Nat

/-- The component right after mount: no timer pending. -/
def mounted : Mounted := { machine := fresh, timers := [], armed := 0 }

/-- The effect `useEffect(() => { if (hidden && !animate) setTimeout(...) }, [hidden])`
after a render, `prevHidden` being `hidden` of the previous render. -/
def animationEffect (prevHidden : Bool) (c : Mounted) : Mounted :=
  if c.machine.state.hidden = prevHidden then c
  else if c.machine.state.hidden && !c.machine.state.animate then
    { c with timers := c.timers ++ [c.machine.state], armed := c.armed + 1 }
  else c

/-- What happens to a mounted component: a scroll notification at an offset,
or the firing of the pending timer at a position of the pending list. -/
inductive Event where
  | scroll : Int → Event
  | fire : Nat → Event
  deriving DecidableEq

/-- The arguments of the `applyState` calls made by one call of `onScroll`, in
order: the one of the first statement (reset or auto-hide) when it makes one,
then the one of the second statement (stick or unstick) when it makes one. -/
def appliedStates (state : HeaderState) (refs : Refs) (scrollY : Int) : List HeaderState :=
  let c1 := resetOrHide state scrollY { applied := none, calls := 0, refs := refs }
  let c2 := stickOrUnstick state scrollY c1
  c1.applied.toList ++ (if c1.calls < c2.calls then c2.applied.toList else [])

/-- One render: `applyState s` makes `s` the state, the component renders, and
the `[hidden]` effect runs against `hidden` of the render before. -/
def render (c : Mounted) (s : HeaderState) : Mounted :=
  animationEffect c.machine.state.hidden { c with machine := { c.machine with state := s } }

/-- One event.  A scroll notification: one render for each `applyState` call of
`onScroll`, in order, and the ref cells as `onScroll` leaves them.  A timer
firing: the callback `setState({ animate: true })` with its captured state, and
the render it causes. -/
def step (c : Mounted) : Event → Mounted
  | .scroll y =>
    let c1 := (appliedStates c.machine.state c.machine.refs y).foldl render c
    { c1 with
      machine := { c1.machine with refs := (onScroll c.machine.state c.machine.refs y).refs } }
  | .fire i =>
    match c.timers[i]? with
    | none => c
    | some captured =>
      render { c with timers := c.timers.eraseIdx i } (setState captured { animate := some true })

/-- The component after the events `es`, in order. -/
def runEvents (c : Mounted) (es : List Event) : Mounted := es.foldl step c

/-- Every call of `onScroll` in the run of the events from `c` makes at most
one `setState` call. -/
def singleSetState : Mounted → List Event → Bool
  | _, [] => true
  | c, .scroll y :: es =>
    decide (setStateCalls c.machine y ≤ 1) && singleSetState (step c (.scroll y)) es
  | c, .fire i :: es => singleSetState (step c (.fire i)) es

/-- Invariant of the runs without a scroll notification at offset `0` in which
every call of `onScroll` makes at most one `setState` call: every pending
callback captured `hidden = true`, at most one timer was armed, and none while
`hidden` is still `false`. -/
def ArmedOnce (c : Mounted) : Prop :=
  (∀ t ∈ c.timers, t.hidden = true) ∧ c.armed ≤ 1 ∧
    (c.machine.state.hidden = false → c.armed = 0 ∧ c.timers = [])

/-! ## Shape of one scroll step and the invariant -/

theorem inv_fresh : Inv fresh := by
  simp [Inv, fresh, initialState, initialRefs]

theorem scroll_stick (m : Machine) (y : Int) (hs : m.state.stuck = false)
    (hf : jsLt (.num y) m.refs.stickAt = true) :
    scroll m y =
      { state := { m.state with stuck := true }
        refs := { lastScrollY := .num y
                  unstickAt := .num (y + 30)
                  stickAt := if jsLt m.refs.lastScrollY (.num y) then .num (y - 30) else .null } } := by
  obtain ⟨⟨stuck, hidden, animate⟩, ⟨last, un, st⟩⟩ := m
  simp only at hs hf
  subst hs
  simp [scroll, onScroll, storeLast, rearmStick, rearmUnstick, stickOrUnstick, resetOrHide,
    setState, hf]
  split_ifs <;> simp

theorem scroll_unstick (m : Machine) (y : Int) (hs : m.state.stuck = true)
    (hf : jsGt (.num y) m.refs.unstickAt = true) :
    scroll m y =
      { state := { m.state with stuck := false }
        refs := { lastScrollY := .num y
                  unstickAt := if jsGt m.refs.lastScrollY (.num y) then .num (y + 30) else .null
                  stickAt := .num (y - 30) } } := by
  obtain ⟨⟨stuck, hidden, animate⟩, ⟨last, un, st⟩⟩ := m
  simp only at hs hf
  subst hs
  simp [scroll, onScroll, storeLast, rearmStick, rearmUnstick, stickOrUnstick, resetOrHide,
    setState, hf]
  split_ifs <;> simp

theorem scroll_quiet_unstuck (m : Machine) (y : Int) (hs : m.state.stuck = false)
    (hf : jsLt (.num y) m.refs.stickAt = false) :
    scroll m y =
      { state := afterResetOrHide m.state y
        refs := { lastScrollY := .num y
                  unstickAt := m.refs.unstickAt
                  stickAt := if jsLt m.refs.lastScrollY (.num y) then .num (y - 30)
                             else m.refs.stickAt } } := by
  obtain ⟨⟨stuck, hidden, animate⟩, ⟨last, un, st⟩⟩ := m
  simp only at hs hf
  subst hs
  simp [scroll, onScroll, storeLast, rearmStick, rearmUnstick, stickOrUnstick, resetOrHide,
    setState, hf, afterResetOrHide]
  split_ifs <;> simp_all

theorem scroll_quiet_stuck (m : Machine) (y : Int) (hs : m.state.stuck = true)
    (hf : jsGt (.num y) m.refs.unstickAt = false) :
    scroll m y =
      { state := afterResetOrHide m.state y
        refs := { lastScrollY := .num y
                  unstickAt := if jsGt m.refs.lastScrollY (.num y) then .num (y + 30)
                               else m.refs.unstickAt
                  stickAt := m.refs.stickAt } } := by
  obtain ⟨⟨stuck, hidden, animate⟩, ⟨last, un, st⟩⟩ := m
  simp only at hs hf
  subst hs
  simp [scroll, onScroll, storeLast, rearmStick, rearmUnstick, stickOrUnstick, resetOrHide,
    setState, hf, afterResetOrHide]
  split_ifs <;> simp_all

theorem afterResetOrHide_stuck (state : HeaderState) (y : Int) :
    (afterResetOrHide state y).stuck = (if y = 0 then false else state.stuck) := by
  unfold afterResetOrHide
  split_ifs <;> rfl

theorem jsLt_num_num (a b : Int) : jsLt (.num a) (.num b) = decide (a < b) := rfl

theorem jsGt_num_num (a b : Int) : jsGt (.num a) (.num b) = decide (a > b) := rfl

theorem jsLt_num_null (a : Int) : jsLt (.num a) .null = decide (a < 0) := rfl

theorem jsLt_undefined_right (a : JSVal) : jsLt a .undefined = false := by
  cases a <;> rfl

theorem inv_scroll (m : Machine) (y : Int) (hy : 0 ≤ y) (h : Inv m) : Inv (scroll m y) := by
  obtain ⟨hT, hF⟩ := h
  cases hs : m.state.stuck
  · cases hf : jsLt (.num y) m.refs.stickAt
    · rw [scroll_quiet_unstuck m y hs hf]
      refine ⟨fun h1 => ?_, fun _ s h2 => ?_⟩
      · simp [afterResetOrHide_stuck, hs] at h1
      · simp only at h2
        split_ifs at h2 with h3
        · exact ⟨y, rfl, by cases h2; omega⟩
        · obtain ⟨l, hl, hle⟩ := hF hs s h2
          refine ⟨y, rfl, ?_⟩
          rw [h2, jsLt_num_num] at hf
          simpa using hf
    · rw [scroll_stick m y hs hf]
      refine ⟨fun _ => ?_, fun h1 => by simp at h1⟩
      cases hst : m.refs.stickAt with
      | undefined => rw [hst, jsLt_undefined_right] at hf; cases hf
      | null => rw [hst, jsLt_num_null] at hf; simp at hf; omega
      | num s =>
        obtain ⟨l, hl, hle⟩ := hF hs s hst
        rw [hst, jsLt_num_num] at hf
        have hlt : y < s := by simpa using hf
        have : jsLt m.refs.lastScrollY (.num y) = false := by
          rw [hl, jsLt_num_num]; simp; omega
        simp [this, JSVal.isNum]
        exact hy
  · obtain ⟨hst, u, l, hu, hl, hl0, hlu⟩ := hT hs
    cases hf : jsGt (.num y) m.refs.unstickAt
    · rw [scroll_quiet_stuck m y hs hf]
      rw [hu, jsGt_num_num] at hf
      have hyu : y ≤ u := by simpa using hf
      refine ⟨fun _ => ⟨hst, ?_⟩, fun h1 s h2 => ?_⟩
      · simp only [hl, jsGt_num_num]
        split_ifs with h3
        · exact ⟨y + 30, y, rfl, rfl, hy, by omega⟩
        · exact ⟨u, y, hu, rfl, hy, hyu⟩
      · simp only at h2
        rw [h2] at hst
        simp [JSVal.isNum] at hst
    · rw [scroll_unstick m y hs hf]
      refine ⟨fun h1 => by simp at h1, fun _ s h2 => ?_⟩
      simp only at h2
      exact ⟨y, rfl, by cases h2; omega⟩

theorem inv_run (ys : List Int) (hys : ∀ y ∈ ys, 0 ≤ y) (m : Machine) (h : Inv m) :
    Inv (run m ys) := by
  induction ys generalizing m with
  | nil => exact h
  | cons y ys ih =>
    simp only [run, List.foldl_cons]
    exact ih (fun z hz => hys z (List.mem_cons_of_mem _ hz)) _
      (inv_scroll m y (hys y (List.mem_cons_self _ _)) h)

/-! ## Reset (C1) -/

/-- C1, as stated, fails: after the offsets `[0, 70]` (not stuck, `stickAt = 40`)
a call of `onScroll` at `scrollY = 0` makes the reset `setState` and then the
stick `setState`, which overlays `stuck: true` on the pre-call state; the flags
end at `stuck = true`, `hidden = true`, not at all `false`. -/
theorem C1_reset_counterexample :
    (run fresh [0, 70]).state = { stuck := false, hidden := true, animate := false } ∧
    (run fresh [0, 70]).refs.stickAt = .num 40 ∧
    (scroll (run fresh [0, 70]) 0).state = { stuck := true, hidden := true, animate := false } ∧
    (scroll (run fresh [0, 70]) 0).state ≠ { stuck := false, hidden := false, animate := false } := by
  decide

/-- C1, amended: for every state and every threshold state in which the
stick / unstick statement of the same call sets no state (it is not the case
that `stuck = false` with `stickAt` armed above `0`, nor that `stuck = true`
with `unstickAt` armed below `0`), one call of `onScroll` with `scrollY = 0`
leaves the flags at `stuck = false`, `hidden = false`, `animate = false`. -/
theorem C1_reset_when_no_firing (m : Machine)
    (hstick : ¬ (m.state.stuck = false ∧ ∃ s, m.refs.stickAt = .num s ∧ 0 < s))
    (hunstick : ¬ (m.state.stuck = true ∧ ∃ u, m.refs.unstickAt = .num u ∧ u < 0)) :
    (scroll m 0).state = { stuck := false, hidden := false, animate := false } := by
  cases hs : m.state.stuck
  · have hf : jsLt (.num 0) m.refs.stickAt = false := by
      cases hst : m.refs.stickAt with
      | undefined => rfl
      | null => rfl
      | num s =>
        rw [jsLt_num_num]
        have : ¬ 0 < s := fun h => hstick ⟨hs, s, hst, h⟩
        simpa using this
    rw [scroll_quiet_unstuck m 0 hs hf]
    simp [afterResetOrHide]
  · have hf : jsGt (.num 0) m.refs.unstickAt = false := by
      cases hun : m.refs.unstickAt with
      | undefined => rfl
      | null => rfl
      | num u =>
        rw [jsGt_num_num]
        have : ¬ u < 0 := fun h => hunstick ⟨hs, u, hun, h⟩
        simpa using this
    rw [scroll_quiet_stuck m 0 hs hf]
    simp [afterResetOrHide]

/-- C1, amended, at the state reached by the offsets `[0, 70, 40, 5]` (stuck,
`unstickAt = 35`, `stickAt` cleared): the call at `0` resets all flags. -/
theorem C1_reset_when_no_firing_witness :
    (run fresh [0, 70, 40, 5]).state = { stuck := true, hidden := true, animate := false } ∧
    (scroll (run fresh [0, 70, 40, 5]) 0).state =
      { stuck := false, hidden := false, animate := false } :=
  ⟨by decide,
    C1_reset_when_no_firing (run fresh [0, 70, 40, 5])
      (fun h => absurd h.1 (by decide))
      (fun h => by
        obtain ⟨_, u, hu, hlt⟩ := h
        have h35 : (run fresh [0, 70, 40, 5]).refs.unstickAt = .num 35 := by decide
        rw [h35] at hu
        cases hu
        omega)⟩

/-! ## Auto-hide (C2) -/

/-- C2 at a failing input: after the offsets `[1, 50, 10]` the header is stuck
and not hidden, with `unstickAt = 40`.  At `scrollY = 100 > 64` the call makes
`setState({ hidden: true })` and then, the unstick rule firing,
`setState({ stuck: false })`, which overlays the pre-call state again: `hidden`
is `false` after the call although `100 > 64`. -/
theorem C2_hide_lost_when_unstick_fires :
    (run fresh [1, 50, 10]).state = { stuck := true, hidden := false, animate := false } ∧
    (run fresh [1, 50, 10]).refs.unstickAt = .num 40 ∧
    setStateCalls (run fresh [1, 50, 10]) 100 = 2 ∧
    (scroll (run fresh [1, 50, 10]) 100).state.hidden = false := by
  decide

/-! ## Stick and unstick firing (C3, C4, C5) -/

/-- C3: in every state reached from the fresh mount state by offsets `≥ 0` in
which `stuck = false` and `stickAt` holds a number `s`, a call of `onScroll` at
an offset `y` with `0 ≤ y < s` ends with `stuck = true`, `stickAt = null` (not
re-armed by the direction statements of the same call), `unstickAt = y + 30`
and `hidden` as before the call. -/
theorem C3_stick_firing (ys : List Int) (hys : ∀ z ∈ ys, 0 ≤ z) (s y : Int)
    (hstuck : (run fresh ys).state.stuck = false)
    (harmed : (run fresh ys).refs.stickAt = .num s)
    (hy : 0 ≤ y) (hlt : y < s) :
    (scroll (run fresh ys) y).state.stuck = true ∧
    (scroll (run fresh ys) y).refs.stickAt = .null ∧
    (scroll (run fresh ys) y).refs.unstickAt = .num (y + 30) ∧
    (scroll (run fresh ys) y).state.hidden = (run fresh ys).state.hidden := by
  have hinv := inv_run ys hys fresh inv_fresh
  obtain ⟨l, hl, hle⟩ := hinv.2 hstuck s harmed
  have hf : jsLt (.num y) (run fresh ys).refs.stickAt = true := by
    rw [harmed, jsLt_num_num]; simpa using hlt
  have hlast : jsLt (run fresh ys).refs.lastScrollY (.num y) = false := by
    rw [hl, jsLt_num_num]; simp; omega
  have _ := hy
  rw [scroll_stick _ y hstuck hf]
  simp [hlast]

/-- C3 at the scenario of the specification: the offsets `[0, 70, 40]` leave
`stuck = false`, `hidden = true`, `stickAt = 40`; the next offset `5` ends with
`stuck = true`, `hidden = true`, `unstickAt = 35` and `stickAt` cleared. -/
theorem C3_stick_firing_witness :
    (run fresh [0, 70, 40]).state.stuck = false ∧
    (run fresh [0, 70, 40]).refs.stickAt = .num 40 ∧
    (run fresh [0, 70, 40]).state.hidden = true ∧
    (scroll (run fresh [0, 70, 40]) 5).state.stuck = true ∧
    (scroll (run fresh [0, 70, 40]) 5).refs.stickAt = .null ∧
    (scroll (run fresh [0, 70, 40]) 5).refs.unstickAt = .num (5 + 30) ∧
    (scroll (run fresh [0, 70, 40]) 5).state.hidden = (run fresh [0, 70, 40]).state.hidden :=
  ⟨by decide, by decide, by decide,
    C3_stick_firing [0, 70, 40] (by decide) 40 5 (by decide) (by decide) (by decide)
      (by decide)⟩

/-- C4: in every state reached from the fresh mount state by offsets `≥ 0` in
which `stuck = true` and `unstickAt` holds a number `u`, a call of `onScroll`
at an offset `y > u` ends with `stuck = false`, `unstickAt = null` (not
re-armed by the direction statements of the same call) and `stickAt = y - 30`. -/
theorem C4_unstick_firing (ys : List Int) (hys : ∀ z ∈ ys, 0 ≤ z) (u y : Int)
    (hstuck : (run fresh ys).state.stuck = true)
    (harmed : (run fresh ys).refs.unstickAt = .num u)
    (hgt : u < y) :
    (scroll (run fresh ys) y).state.stuck = false ∧
    (scroll (run fresh ys) y).refs.unstickAt = .null ∧
    (scroll (run fresh ys) y).refs.stickAt = .num (y - 30) := by
  have hinv := inv_run ys hys fresh inv_fresh
  obtain ⟨_, u', l, hu', hl, _, hle⟩ := hinv.1 hstuck
  rw [harmed] at hu'
  cases hu'
  have hf : jsGt (.num y) (run fresh ys).refs.unstickAt = true := by
    rw [harmed, jsGt_num_num]; simpa using hgt
  have hlast : jsGt (run fresh ys).refs.lastScrollY (.num y) = false := by
    rw [hl, jsGt_num_num]; simp; omega
  rw [scroll_unstick _ y hstuck hf]
  simp [hlast]

/-- C4 at the state reached by `[0, 70, 40, 5]` (stuck, `unstickAt = 35`) and
the offset `36`. -/
theorem C4_unstick_firing_witness :
    (run fresh [0, 70, 40, 5]).state.stuck = true ∧
    (run fresh [0, 70, 40, 5]).refs.unstickAt = .num 35 ∧
    (scroll (run fresh [0, 70, 40, 5]) 36).state.stuck = false ∧
    (scroll (run fresh [0, 70, 40, 5]) 36).refs.unstickAt = .null ∧
    (scroll (run fresh [0, 70, 40, 5]) 36).refs.stickAt = .num (36 - 30) :=
  ⟨by decide, by decide,
    C4_unstick_firing [0, 70, 40, 5] (by decide) 35 36 (by decide) (by decide) (by decide)⟩

/-- C5: in every state with `stuck = false` and `stickAt` holding a number `s`,
and for every offset `y ≥ 0`, `stuck` is `true` after `onScroll` at `y` exactly
when `y < s`; so an offset equal to `s` leaves `stuck = false` and the offset
`s - 1` sets `stuck = true`. -/
theorem C5_strict_stick_threshold (m : Machine) (s y : Int)
    (hstuck : m.state.stuck = false) (harmed : m.refs.stickAt = .num s) (hy : 0 ≤ y) :
    ((scroll m y).state.stuck = true ↔ y < s) := by
  have _ := hy
  cases hf : jsLt (.num y) m.refs.stickAt
  · rw [scroll_quiet_unstuck m y hstuck hf]
    rw [harmed, jsLt_num_num] at hf
    have hge : ¬ y < s := by simpa using hf
    simp [afterResetOrHide_stuck, hstuck]
    omega
  · rw [scroll_stick m y hstuck hf]
    rw [harmed, jsLt_num_num] at hf
    have hlt : y < s := by simpa using hf
    simp [hlt]

/-- C5 at the state reached by `[0, 70]` (`stickAt = 40`): the offset `40`
leaves `stuck = false`, the offset `39` sets `stuck = true`. -/
theorem C5_strict_stick_threshold_witness :
    (run fresh [0, 70]).state.stuck = false ∧ (run fresh [0, 70]).refs.stickAt = .num 40 ∧
    ((scroll (run fresh [0, 70]) 40).state.stuck = true ↔ (40 : Int) < 40) ∧
    ((scroll (run fresh [0, 70]) 39).state.stuck = true ↔ (39 : Int) < 40) :=
  ⟨by decide, by decide,
    C5_strict_stick_threshold (run fresh [0, 70]) 40 40 (by decide) (by decide) (by decide),
    C5_strict_stick_threshold (run fresh [0, 70]) 40 39 (by decide) (by decide) (by decide)⟩

/-! ## No flicker inside the band (C6) -/

theorem scroll_stuck_of_inBand (m : Machine) (y : Int) (hinv : Inv m) (hy : 0 < y)
    (hband : inBand m y) : (scroll m y).state.stuck = m.state.stuck := by
  cases hs : m.state.stuck
  · have hf : jsLt (.num y) m.refs.stickAt = false := by
      cases hst : m.refs.stickAt with
      | undefined => rfl
      | null => rw [jsLt_num_null]; simp; omega
      | num s =>
        rw [jsLt_num_num]
        have := hband.1
        rw [hst] at this
        simp [notBelow] at this
        simp; omega
    rw [scroll_quiet_unstuck m y hs hf]
    simp [afterResetOrHide_stuck, hs]
  · obtain ⟨_, u, l, hu, _, _, _⟩ := hinv.1 hs
    have hf : jsGt (.num y) m.refs.unstickAt = false := by
      rw [hu, jsGt_num_num]
      have := hband.2
      rw [hu] at this
      simp [notAbove] at this
      simp; omega
    rw [scroll_quiet_stuck m y hs hf]
    simp [afterResetOrHide_stuck, hs]
    omega

theorem run_stuck_of_confined (zs : List Int) (m : Machine) (hinv : Inv m)
    (hc : confined m zs) : (run m zs).state.stuck = m.state.stuck := by
  induction zs generalizing m with
  | nil => rfl
  | cons z zs ih =>
    obtain ⟨hz, hband, hrest⟩ := hc
    simp only [run, List.foldl_cons]
    have h1 := ih (scroll m z) (inv_scroll m z (le_of_lt hz) hinv) hrest
    simp only [run] at h1
    rw [h1, scroll_stuck_of_inBand m z hinv hz hband]

/-- C6, as stated, fails at the offset `0`: after `[0, 70, 40, 5]` the header
is stuck with `unstickAt = 35` and `stickAt` cleared, so `0` lies in the band,
yet the reset rule of `onScroll` at `0` sets `stuck` back to `false`. -/
theorem C6_band_counterexample :
    (run fresh [0, 70, 40, 5]).state.stuck = true ∧
    inBand (run fresh [0, 70, 40, 5]) 0 ∧
    (scroll (run fresh [0, 70, 40, 5]) 0).state.stuck = false := by
  decide

/-- C6, amended: in every state reached from the fresh mount state by offsets
`≥ 0`, a sequence of offsets `y > 0`, each within the hysteresis band current
when it is delivered (`y ≥ stickAt` when `stickAt` is armed, `y ≤ unstickAt`
when `unstickAt` is armed), leaves `stuck` unchanged; a single such offset is
the sequence of length one. -/
theorem C6_no_flicker_in_band (ys zs : List Int) (hys : ∀ z ∈ ys, 0 ≤ z)
    (hzs : confined (run fresh ys) zs) :
    (run (run fresh ys) zs).state.stuck = (run fresh ys).state.stuck :=
  run_stuck_of_confined zs (run fresh ys) (inv_run ys hys fresh inv_fresh) hzs

/-- C6, amended, at the stuck state reached by `[0, 70, 40, 5]`
(`unstickAt = 35`): the offsets `20, 35, 10, 40` stay in the band (the third
re-arms `unstickAt` to `40`) and `stuck` stays `true`. -/
theorem C6_no_flicker_in_band_witness :
    confined (run fresh [0, 70, 40, 5]) [20, 35, 10, 40] ∧
    (run (run fresh [0, 70, 40, 5]) [20, 35, 10, 40]).state.stuck =
      (run fresh [0, 70, 40, 5]).state.stuck :=
  ⟨by simp only [confined]; decide,
    C6_no_flicker_in_band [0, 70, 40, 5] [20, 35, 10, 40] (by decide)
      (by simp only [confined]; decide)⟩

/-! ## Idempotence (C7) -/

theorem afterResetOrHide_idem (state : HeaderState) (y : Int) :
    afterResetOrHide (afterResetOrHide state y) y = afterResetOrHide state y := by
  unfold afterResetOrHide
  split_ifs <;> simp_all

theorem afterResetOrHide_of_calls_stick (m : Machine) (y : Int) (hs : m.state.stuck = false)
    (hf : jsLt (.num y) m.refs.stickAt = true) (hc : setStateCalls m y ≤ 1) (b : Bool) :
    afterResetOrHide { m.state with stuck := b } y = { m.state with stuck := b } := by
  obtain ⟨⟨stuck, hidden, animate⟩, ⟨last, un, st⟩⟩ := m
  simp only at hs hf
  subst hs
  simp [setStateCalls, onScroll, storeLast, rearmStick, rearmUnstick, stickOrUnstick,
    resetOrHide, hf] at hc
  unfold afterResetOrHide
  split_ifs at hc ⊢ <;> simp_all

theorem afterResetOrHide_of_calls_unstick (m : Machine) (y : Int) (hs : m.state.stuck = true)
    (hf : jsGt (.num y) m.refs.unstickAt = true) (hc : setStateCalls m y ≤ 1) (b : Bool) :
    afterResetOrHide { m.state with stuck := b } y = { m.state with stuck := b } := by
  obtain ⟨⟨stuck, hidden, animate⟩, ⟨last, un, st⟩⟩ := m
  simp only at hs hf
  subst hs
  simp [setStateCalls, onScroll, storeLast, rearmStick, rearmUnstick, stickOrUnstick,
    resetOrHide, hf] at hc
  unfold afterResetOrHide
  split_ifs at hc ⊢ <;> simp_all

theorem scroll_twice_state (m : Machine) (y : Int) (hinv : Inv m)
    (hc : setStateCalls m y ≤ 1) : (scroll (scroll m y) y).state = (scroll m y).state := by
  cases hs : m.state.stuck
  · cases hf : jsLt (.num y) m.refs.stickAt
    · have h1 := scroll_quiet_unstuck m y hs hf
      have hs1 : (scroll m y).state.stuck = false := by
        rw [h1]; simp [afterResetOrHide_stuck, hs]
      have hf1 : jsLt (.num y) (scroll m y).refs.stickAt = false := by
        rw [h1]
        simp only
        split_ifs
        · rw [jsLt_num_num]; simp
        · exact hf
      rw [scroll_quiet_unstuck (scroll m y) y hs1 hf1]
      simp only
      rw [h1]
      exact afterResetOrHide_idem m.state y
    · have h1 := scroll_stick m y hs hf
      have hs1 : (scroll m y).state.stuck = true := by rw [h1]
      have hf1 : jsGt (.num y) (scroll m y).refs.unstickAt = false := by
        rw [h1]; simp only; rw [jsGt_num_num]; simp
      rw [scroll_quiet_stuck (scroll m y) y hs1 hf1]
      simp only
      rw [h1]
      exact afterResetOrHide_of_calls_stick m y hs hf hc true
  · obtain ⟨hst, u, l, hu, hl, hl0, hlu⟩ := hinv.1 hs
    cases hf : jsGt (.num y) m.refs.unstickAt
    · have h1 := scroll_quiet_stuck m y hs hf
      have hyu : y ≤ u := by
        rw [hu, jsGt_num_num] at hf; simpa using hf
      by_cases hy0 : y = 0
      · have hs1 : (scroll m y).state.stuck = false := by
          rw [h1]; simp [afterResetOrHide_stuck, hy0]
        have hf1 : jsLt (.num y) (scroll m y).refs.stickAt = false := by
          rw [h1]
          simp only
          cases hst' : m.refs.stickAt with
          | undefined => rfl
          | null => rw [jsLt_num_null]; simp; omega
          | num s => rw [hst'] at hst; simp [JSVal.isNum] at hst
        rw [scroll_quiet_unstuck (scroll m y) y hs1 hf1]
        simp only
        rw [h1]
        exact afterResetOrHide_idem m.state y
      · have hs1 : (scroll m y).state.stuck = true := by
          rw [h1]; simp [afterResetOrHide_stuck, hy0, hs]
        have hf1 : jsGt (.num y) (scroll m y).refs.unstickAt = false := by
          rw [h1]
          simp only
          split_ifs
          · rw [jsGt_num_num]; simp
          · exact hf
        rw [scroll_quiet_stuck (scroll m y) y hs1 hf1]
        simp only
        rw [h1]
        exact afterResetOrHide_idem m.state y
    · have h1 := scroll_unstick m y hs hf
      have hs1 : (scroll m y).state.stuck = false := by rw [h1]
      have hf1 : jsLt (.num y) (scroll m y).refs.stickAt = false := by
        rw [h1]; simp only; rw [jsLt_num_num]; simp
      rw [scroll_quiet_unstuck (scroll m y) y hs1 hf1]
      simp only
      rw [h1]
      exact afterResetOrHide_of_calls_unstick m y hs hf hc false

/-- C7, as stated, fails: after the offsets `[0, 70]` (not stuck, hidden,
`stickAt = 40`) the first call at offset `0` makes the reset `setState` and
then the stick `setState`, ending with `stuck = true`, `hidden = true`; the
second call at the same offset `0` only resets, so all three flags are `false`:
the flags change on the repeated call. -/
theorem C7_idempotence_counterexample :
    (scroll (run fresh [0, 70]) 0).state = { stuck := true, hidden := true, animate := false } ∧
    (scroll (scroll (run fresh [0, 70]) 0) 0).state =
      { stuck := false, hidden := false, animate := false } ∧
    (scroll (scroll (run fresh [0, 70]) 0) 0).state ≠ (scroll (run fresh [0, 70]) 0).state := by
  decide

/-- C7, amended: in every state reached from the fresh mount state by offsets
`≥ 0`, and for every offset `y ≥ 0` at which `onScroll` makes at most one
`setState` call, calling `onScroll` at `y` a second time directly after leaves
the flags `stuck`, `hidden`, `animate` exactly as the first call left them. -/
theorem C7_idempotent_single_setState (ys : List Int) (hys : ∀ z ∈ ys, 0 ≤ z) (y : Int)
    (hy : 0 ≤ y) (hcalls : setStateCalls (run fresh ys) y ≤ 1) :
    (scroll (scroll (run fresh ys) y) y).state = (scroll (run fresh ys) y).state :=
  have _ := hy
  scroll_twice_state (run fresh ys) y (inv_run ys hys fresh inv_fresh) hcalls

/-- C7, amended, at the state reached by `[0, 70, 40]` and the offset `5`,
where the only `setState` call is the stick one. -/
theorem C7_idempotent_single_setState_witness :
    setStateCalls (run fresh [0, 70, 40]) 5 ≤ 1 ∧
    (scroll (scroll (run fresh [0, 70, 40]) 5) 5).state =
      (scroll (run fresh [0, 70, 40]) 5).state :=
  ⟨by decide,
    C7_idempotent_single_setState [0, 70, 40] (by decide) 5 (by decide) (by decide)⟩

/-! ## Mutual exclusion of the thresholds (C9) -/

theorem unstuckClear_scroll (m : Machine) (y : Int) (hy : 0 < y) (hinv : Inv m)
    (h : UnstuckClear m) : UnstuckClear (scroll m y) := by
  have hy0 : y ≠ 0 := by omega
  cases hs : m.state.stuck
  · cases hf : jsLt (.num y) m.refs.stickAt
    · rw [scroll_quiet_unstuck m y hs hf]
      intro _
      exact h hs
    · rw [scroll_stick m y hs hf]
      intro h1
      simp at h1
  · obtain ⟨_, u, l, hu, hl, _, hlu⟩ := hinv.1 hs
    cases hf : jsGt (.num y) m.refs.unstickAt
    · rw [scroll_quiet_stuck m y hs hf]
      intro h1
      simp [afterResetOrHide_stuck, hy0, hs] at h1
    · rw [scroll_unstick m y hs hf]
      intro _
      rw [hu, jsGt_num_num] at hf
      have hgt : u < y := by simpa using hf
      have hlast : jsGt m.refs.lastScrollY (.num y) = false := by
        rw [hl, jsGt_num_num]; simp; omega
      simp [hlast, JSVal.isNum]

theorem unstuckClear_run (ys : List Int) (hys : ∀ y ∈ ys, 0 < y) (m : Machine) (hinv : Inv m)
    (h : UnstuckClear m) : UnstuckClear (run m ys) := by
  induction ys generalizing m with
  | nil => exact h
  | cons y ys ih =>
    simp only [run, List.foldl_cons]
    have hy := hys y (List.mem_cons_self _ _)
    exact ih (fun z hz => hys z (List.mem_cons_of_mem _ hz)) _
      (inv_scroll m y (le_of_lt hy) hinv) (unstuckClear_scroll m y hy hinv h)

/-- C9, as stated, fails: after the offsets `[0, 200, 10, 0, 100]` both
thresholds hold a number (`stickAt = 70`, `unstickAt = 30`).  The stick rule
armed `unstickAt` at offset `10`, the reset at offset `0` cleared `stuck`
without touching the thresholds, and the downward move to `100` armed
`stickAt`. -/
theorem C9_exclusion_counterexample :
    (run fresh [0, 200, 10, 0, 100]).refs.stickAt = .num 70 ∧
    (run fresh [0, 200, 10, 0, 100]).refs.unstickAt = .num 30 ∧
    ¬ exclusive (run fresh [0, 200, 10, 0, 100]).refs := by
  decide

/-- C9, amended: in every state reached from the fresh mount state by offsets
`≥ 0` in which `stuck = true`, `stickAt` holds no number, so both thresholds
hold a number only while `stuck = false` (where `unstickAt` is not consulted);
and when all the offsets are `> 0` (no return to the very top) at most one of
`stickAt` and `unstickAt` holds a number. -/
theorem C9_threshold_exclusion (ys : List Int) (hys : ∀ z ∈ ys, 0 ≤ z) :
    ((run fresh ys).state.stuck = true → (run fresh ys).refs.stickAt.isNum = false) ∧
    ((∀ z ∈ ys, 0 < z) → exclusive (run fresh ys).refs) := by
  have hinv := inv_run ys hys fresh inv_fresh
  refine ⟨fun hs => (hinv.1 hs).1, fun hpos hboth => ?_⟩
  have hclear := unstuckClear_run ys hpos fresh inv_fresh (fun _ => rfl)
  cases hs : (run fresh ys).state.stuck
  · have := hclear hs
    rw [hboth.2] at this
    cases this
  · have := (hinv.1 hs).1
    rw [hboth.1] at this
    cases this

/-- C9, amended, at the offsets `[10, 200, 10, 100]`: the run ends not stuck
with `stickAt = 70` armed and `unstickAt` cleared. -/
theorem C9_threshold_exclusion_witness :
    (run fresh [10, 200, 10, 100]).refs.stickAt = .num 70 ∧
    (run fresh [10, 200, 10, 100]).refs.unstickAt = .null ∧
    exclusive (run fresh [10, 200, 10, 100]).refs :=
  ⟨by decide, by decide,
    (C9_threshold_exclusion [10, 200, 10, 100] (by decide)).2 (by decide)⟩

/-! ## The animation flag and its timer (C8, C10) -/

theorem afterResetOrHide_animate (state : HeaderState) (y : Int) (hy : y ≠ 0) :
    (afterResetOrHide state y).animate = state.animate := by
  unfold afterResetOrHide
  split_ifs <;> simp_all

theorem afterResetOrHide_hidden (state : HeaderState) (y : Int) (hy : y ≠ 0)
    (h : state.hidden = true) : (afterResetOrHide state y).hidden = true := by
  unfold afterResetOrHide
  split_ifs <;> simp_all

theorem scroll_animate (m : Machine) (y : Int) (hy : y ≠ 0) :
    (scroll m y).state.animate = m.state.animate := by
  cases hs : m.state.stuck
  · cases hf : jsLt (.num y) m.refs.stickAt
    · rw [scroll_quiet_unstuck m y hs hf]; exact afterResetOrHide_animate _ y hy
    · rw [scroll_stick m y hs hf]
  · cases hf : jsGt (.num y) m.refs.unstickAt
    · rw [scroll_quiet_stuck m y hs hf]; exact afterResetOrHide_animate _ y hy
    · rw [scroll_unstick m y hs hf]

theorem scroll_hidden (m : Machine) (y : Int) (hy : y ≠ 0) (h : m.state.hidden = true) :
    (scroll m y).state.hidden = true := by
  cases hs : m.state.stuck
  · cases hf : jsLt (.num y) m.refs.stickAt
    · rw [scroll_quiet_unstuck m y hs hf]; exact afterResetOrHide_hidden _ y hy h
    · rw [scroll_stick m y hs hf]; exact h
  · cases hf : jsGt (.num y) m.refs.unstickAt
    · rw [scroll_quiet_stuck m y hs hf]; exact afterResetOrHide_hidden _ y hy h
    · rw [scroll_unstick m y hs hf]; exact h

theorem animationEffect_machine (b : Bool) (c : Mounted) :
    (animationEffect b c).machine = c.machine := by
  unfold animationEffect
  split_ifs <;> rfl

theorem render_machine (c : Mounted) (s : HeaderState) :
    (render c s).machine = { c.machine with state := s } := by
  simp [render, animationEffect_machine]

theorem step_scroll_machine (c : Mounted) (y : Int) :
    (step c (.scroll y)).machine = scroll c.machine y := by
  obtain ⟨⟨⟨stuck, hidden, animate⟩, refs⟩, timers, armed⟩ := c
  simp only [step, appliedStates, scroll, onScroll, storeLast, rearmStick, rearmUnstick,
    stickOrUnstick, resetOrHide]
  split_ifs <;> simp_all [render_machine]

theorem resetOrHide_cases (state : HeaderState) (y : Int) (refs : Refs) :
    ((resetOrHide state y { applied := none, calls := 0, refs := refs }).applied = none ∧
      (resetOrHide state y { applied := none, calls := 0, refs := refs }).calls = 0) ∨
    (resetOrHide state y { applied := none, calls := 0, refs := refs }).calls = 1 := by
  unfold resetOrHide
  split_ifs <;> simp

theorem stickOrUnstick_cases (state : HeaderState) (y : Int) (c : Call) :
    stickOrUnstick state y c = c ∨
    ((stickOrUnstick state y c).calls = c.calls + 1 ∧
      ∃ s, (stickOrUnstick state y c).applied = some s) := by
  unfold stickOrUnstick
  split_ifs <;> simp

theorem onScroll_applied (state : HeaderState) (refs : Refs) (y : Int) :
    (onScroll state refs y).applied =
      (stickOrUnstick state y
        (resetOrHide state y { applied := none, calls := 0, refs := refs })).applied := by
  simp only [onScroll, storeLast, rearmStick, rearmUnstick]
  split_ifs <;> rfl

theorem onScroll_calls (state : HeaderState) (refs : Refs) (y : Int) :
    (onScroll state refs y).calls =
      (stickOrUnstick state y
        (resetOrHide state y { applied := none, calls := 0, refs := refs })).calls := by
  simp only [onScroll, storeLast, rearmStick, rearmUnstick]
  split_ifs <;> rfl

theorem appliedStates_of_single (m : Machine) (y : Int) (h : setStateCalls m y ≤ 1) :
    appliedStates m.state m.refs y = (onScroll m.state m.refs y).applied.toList := by
  rw [setStateCalls, onScroll_calls] at h
  rw [onScroll_applied]
  simp only [appliedStates]
  rcases stickOrUnstick_cases m.state y
    (resetOrHide m.state y { applied := none, calls := 0, refs := m.refs }) with h2 | ⟨h2, _⟩
  · rw [h2]; simp
  · rcases resetOrHide_cases m.state y m.refs with ⟨h1, h1c⟩ | h1c
    · rw [h1, h2]; simp
    · rw [h2, h1c] at h; omega

theorem step_animate (c : Mounted) (e : Event) (he : e ≠ .scroll 0)
    (h : c.machine.state.animate = true) : (step c e).machine.state.animate = true := by
  cases e with
  | scroll y =>
    have hy : y ≠ 0 := fun h0 => he (by rw [h0])
    rw [step_scroll_machine, scroll_animate _ y hy]
    exact h
  | fire i =>
    simp only [step]
    cases c.timers[i]? with
    | none => exact h
    | some captured => simp [render_machine, setState]

theorem runEvents_animate (es : List Event) (hes : ∀ e ∈ es, e ≠ .scroll 0) (c : Mounted)
    (h : c.machine.state.animate = true) : (runEvents c es).machine.state.animate = true := by
  induction es generalizing c with
  | nil => exact h
  | cons e es ih =>
    simp only [runEvents, List.foldl_cons]
    exact ih (fun z hz => hes z (List.mem_cons_of_mem _ hz)) _
      (step_animate c e (hes e (List.mem_cons_self _ _)) h)

theorem armedOnce_effect (prev : Bool) (c : Mounted)
    (ht : ∀ t ∈ c.timers, t.hidden = true) (ha : c.armed ≤ 1)
    (h0 : prev = false → c.armed = 0 ∧ c.timers = [])
    (hmono : prev = true → c.machine.state.hidden = true) :
    ArmedOnce (animationEffect prev c) := by
  unfold animationEffect
  split_ifs with h1 h2
  · exact ⟨ht, ha, fun h => h0 (by rw [← h1]; exact h)⟩
  · have hh : c.machine.state.hidden = true := by
      simp only [Bool.and_eq_true] at h2; exact h2.1
    have hp : prev = false := by
      cases prev
      · rfl
      · exact absurd (hmono rfl) h1
    obtain ⟨ha0, ht0⟩ := h0 hp
    refine ⟨?_, ?_, ?_⟩
    · intro t htm
      simp only [ht0, List.nil_append, List.mem_singleton] at htm
      rw [htm]; exact hh
    · simp only [ha0]; omega
    · intro hf
      simp only at hf
      rw [hh] at hf
      cases hf
  · refine ⟨ht, ha, fun h => h0 ?_⟩
    cases prev
    · rfl
    · rw [hmono rfl] at h; cases h

theorem armedOnce_render (c : Mounted) (s : HeaderState) (h : ArmedOnce c)
    (hmono : c.machine.state.hidden = true → s.hidden = true) : ArmedOnce (render c s) := by
  obtain ⟨ht, ha, h0⟩ := h
  exact armedOnce_effect _ _ ht ha h0 hmono

theorem armedOnce_step (c : Mounted) (e : Event) (he : e ≠ .scroll 0)
    (hsingle : singleSetState c [e] = true) (h : ArmedOnce c) : ArmedOnce (step c e) := by
  cases e with
  | scroll y =>
    have hy : y ≠ 0 := fun hz => he (by rw [hz])
    have hcalls : setStateCalls c.machine y ≤ 1 := by
      simpa [singleSetState] using hsingle
    have hstate : (scroll c.machine y).state =
        (onScroll c.machine.state c.machine.refs y).applied.getD c.machine.state := rfl
    have hmono := scroll_hidden c.machine y hy
    rw [hstate] at hmono
    simp only [step, appliedStates_of_single c.machine y hcalls]
    cases happ : (onScroll c.machine.state c.machine.refs y).applied with
    | none => exact h
    | some s =>
      rw [happ] at hmono
      exact armedOnce_render c s h hmono
  | fire i =>
    simp only [step]
    cases hti : c.timers[i]? with
    | none => exact h
    | some captured =>
      obtain ⟨ht, ha, h0⟩ := h
      have hmem : captured ∈ c.timers := List.getElem?_mem hti
      have hcap := ht captured hmem
      refine armedOnce_render _ _ ⟨?_, ha, ?_⟩ (fun _ => ?_)
      · intro t htm
        exact ht t (List.mem_of_mem_eraseIdx htm)
      · intro hp
        obtain ⟨_, hnil⟩ := h0 hp
        rw [hnil] at hmem
        cases hmem
      · simp [setState, hcap]

theorem singleSetState_cons (c : Mounted) (e : Event) (es : List Event)
    (h : singleSetState c (e :: es) = true) :
    singleSetState c [e] = true ∧ singleSetState (step c e) es = true := by
  cases e with
  | scroll y => simpa [singleSetState] using h
  | fire i => simpa [singleSetState] using h

theorem armedOnce_run (es : List Event) (hes : ∀ e ∈ es, e ≠ .scroll 0) (c : Mounted)
    (hsingle : singleSetState c es = true) (h : ArmedOnce c) : ArmedOnce (runEvents c es) := by
  induction es generalizing c with
  | nil => exact h
  | cons e es ih =>
    obtain ⟨h1, h2⟩ := singleSetState_cons c e es hsingle
    simp only [runEvents, List.foldl_cons]
    exact ih (fun z hz => hes z (List.mem_cons_of_mem _ hz)) _ h2
      (armedOnce_step c e (hes e (List.mem_cons_self _ _)) h1 h)

theorem armedOnce_mounted : ArmedOnce mounted := by
  simp [ArmedOnce, mounted]

theorem runEvents_append (c : Mounted) (es1 es2 : List Event) :
    runEvents c (es1 ++ es2) = runEvents (runEvents c es1) es2 := by
  simp [runEvents, List.foldl_append]

/-- The intermediate render of a call with two `setState` calls arms a timer:
at offset `100` after `[1, 50, 10]` the auto-hide renders `hidden = true` (one
timer), the unstick overlay renders `hidden = false` again, and the auto-hide
at `200` arms a second timer, with no notification at offset `0`. -/
theorem armed_twice_by_intermediate_render :
    (runEvents mounted [.scroll 1, .scroll 50, .scroll 10, .scroll 100]).armed = 1 ∧
    (runEvents mounted [.scroll 1, .scroll 50, .scroll 10, .scroll 100]).machine.state.hidden
      = false ∧
    (runEvents mounted [.scroll 1, .scroll 50, .scroll 10, .scroll 100, .scroll 200]).armed
      = 2 ∧
    singleSetState mounted [.scroll 1, .scroll 50, .scroll 10, .scroll 100, .scroll 200]
      = false := by
  decide

/-- C8, as stated, fails: in the run `scroll 70`, timer fires, `scroll 0`,
`scroll 70` the flag `animate` is `true` after the timer fired and `false`
after the notification at offset `0` (the reset rule writes `animate: false`),
and the next hide arms a second timer. -/
theorem C8_animate_reverts_counterexample :
    (runEvents mounted [.scroll 70, .fire 0]).machine.state.animate = true ∧
    (runEvents mounted [.scroll 70, .fire 0, .scroll 0]).machine.state.animate = false ∧
    (runEvents mounted [.scroll 70, .fire 0, .scroll 0, .scroll 70]).armed = 2 := by
  decide

/-- C8, amended: in every run from mount, once `animate` is `true` no later
step other than a scroll notification at offset `0` makes it `false` (neither
a notification at another offset nor a firing of the deferred callback); and
in a run with no scroll notification at offset `0` in which every call of
`onScroll` makes at most one `setState` call, the condition that arms the
timer holds at most once. -/
theorem C8_animate_kept_away_from_top (es1 es2 : List Event)
    (hlater : ∀ e ∈ es2, e ≠ Event.scroll 0) :
    ((runEvents mounted es1).machine.state.animate = true →
      (runEvents mounted (es1 ++ es2)).machine.state.animate = true) ∧
    ((∀ e ∈ es1, e ≠ Event.scroll 0) → singleSetState mounted (es1 ++ es2) = true →
      (runEvents mounted (es1 ++ es2)).armed ≤ 1) := by
  refine ⟨fun h => ?_, fun hfirst hsingle => ?_⟩
  · rw [runEvents_append]
    exact runEvents_animate es2 hlater _ h
  · have hall : ∀ e ∈ es1 ++ es2, e ≠ Event.scroll 0 := by
      intro e he
      rcases List.mem_append.1 he with h1 | h2
      · exact hfirst e h1
      · exact hlater e h2
    exact (armedOnce_run (es1 ++ es2) hall mounted hsingle armedOnce_mounted).2.1

/-- C8, amended, at the run `scroll 70`, timer fires, then `scroll 30`,
`scroll 80`, `scroll 10`: every call makes at most one `setState` call,
`animate` stays `true` and one timer was armed. -/
theorem C8_animate_kept_away_from_top_witness :
    (runEvents mounted [.scroll 70, .fire 0]).machine.state.animate = true ∧
    singleSetState mounted ([.scroll 70, .fire 0] ++ [.scroll 30, .scroll 80, .scroll 10])
      = true ∧
    (runEvents mounted ([.scroll 70, .fire 0] ++ [.scroll 30, .scroll 80, .scroll 10])).machine.state.animate
      = true ∧
    (runEvents mounted ([.scroll 70, .fire 0] ++ [.scroll 30, .scroll 80, .scroll 10])).armed ≤ 1 :=
  ⟨by decide, by decide,
    (C8_animate_kept_away_from_top [.scroll 70, .fire 0] [.scroll 30, .scroll 80, .scroll 10]
      (by decide)).1 (by decide),
    (C8_animate_kept_away_from_top [.scroll 70, .fire 0] [.scroll 30, .scroll 80, .scroll 10]
      (by decide)).2 (by decide) (by decide)⟩

/-- C10 at a failing input: the offsets `0, 70` hide the header and schedule
the callback, which captures `stuck = false`, `hidden = true`; the offset `5`
then sets `stuck = true`.  When the callback fires it writes the captured state
overlaid with `animate: true`, so `stuck` goes from `true` back to `false`. -/
theorem C10_timer_overwrites_stuck :
    (runEvents mounted [.scroll 0, .scroll 70, .scroll 5]).timers
      = [{ stuck := false, hidden := true, animate := false }] ∧
    (runEvents mounted [.scroll 0, .scroll 70, .scroll 5]).machine.state
      = { stuck := true, hidden := true, animate := false } ∧
    (runEvents mounted [.scroll 0, .scroll 70, .scroll 5, .fire 0]).machine.state
      = { stuck := false, hidden := true, animate := true } := by
  decide

end AppBar
